import Mathlib

/-!
Verification development for the sordid-tools framework: the property layer
(src/python/sordid/proputils.py), the source-order utility
(src/python/sordid/util.py), the state-machine layer
(src/python/sordid/machine.py) and the check combinator algebra
(src/sordid/modl/check.py), embedded shallowly and checked against the
natural-language specification.
-/

set_option autoImplicit false

namespace Sordid

namespace Props

/-- Python runtime types that the property layer tests with isinstance
(proputils.type_validator and StrictProperty). -/
inductive PyType where
  | int
  | float
  | str
  | noneType
deriving DecidableEq, Repr

/-- Python values stored in property slots. Floats are opaque identities here:
the code under study never computes with a float, it only isinstance-checks
one. -/
inductive PyVal where
  | vint (n : Int)
  | vfloat (fid : Nat)
  | vstr (s : String)
  | vnone
deriving DecidableEq, Repr

/-- Embedding of the isinstance checks performed by type_validator. -/
def isinstance : PyVal → PyType → Bool
  | .vint _, .int => true
  | .vfloat _, .float => true
  | .vstr _, .str => true
  | .vnone, .noneType => true
  | _, _ => false

/-- Errors surfaced by the property layer. The constructors keep the Python
exception kind and the data interpolated into the message: readOnly is the
AttributeError raised by ReadOnlyProperty (its message interpolates the field
name and the owning class name), valueError is the ValueError raised by
ValidatedProperty (message interpolates field name, owner and offending
value), typeError is the TypeError raised by type_validator, and nameError is
a Python NameError on an identifier that is not bound in the module. -/
inductive PErr where
  | notConfigured
  | readOnly (name cls : String)
  | valueError (name cls : String) (v : PyVal)
  | typeError (tyName : String)
  | nameError (ident : String)
deriving DecidableEq, Repr

/-- State of one proputils.Property accessor: the private __name, the derived
private slot name __attribute_name, and the owning class __cls. All three
start out absent (the class default is __name = None). -/
structure Property where
  name : Option String
  attribute_name : Option String
  cls : Option String
deriving DecidableEq, Repr

/-- Truthiness of the stored name, as the guard `if self.__name:` in
Property.__config__ evaluates it: None and the empty string are falsy. -/
def truthyName : Option String → Bool
  | some s => s ≠ ""
  | none => false

/-- Embedding of proputils.Property.__config__. When the accessor is already
configured the source executes `raise IllegalStateError(...)`; that identifier
is neither defined in proputils.py nor imported there (the class of that name
lives in util.py), so evaluating the raise statement actually fails with a
NameError on IllegalStateError, before the message is even formatted. In
either failure or success the previously stored binding fields are not
modified by a failed call. -/
def propertyConfig (p : Property) (cls name : String) : Except PErr Property :=
  if truthyName p.name then
    .error (.nameError "IllegalStateError")
  else
    .ok { name := some name
          attribute_name := some ("_" ++ cls ++ "__" ++ name)
          cls := some cls }

/-- Embedding of proputils.ReadOnlyProperty.__set__ for a configured (bound)
field. The slot models the per-instance private storage attribute: the source
probes `getattr(instance, self.name)`, and only when that raises
AttributeError (no value stored yet) does it delegate to Property.__set__,
which stores the value; otherwise it raises the read-only AttributeError whose
message interpolates self.name and self.cls.__name__. An error therefore
leaves the stored slot untouched. -/
def readOnlySet (name cls : String) (slot : Option PyVal) (v : PyVal) :
    Except PErr (Option PyVal) :=
  match slot with
  | none => .ok (some v)
  | some _ => .error (.readOnly name cls)

/-- Embedding of proputils.ReadOnlyProperty.__delete__: it raises the
read-only AttributeError unconditionally. -/
def readOnlyDelete (name cls : String) : Except PErr Unit :=
  .error (.readOnly name cls)

/-- Embedding of the inner validator produced by proputils.type_validator: a
value that is not an instance of the required type raises TypeError, any
other value yields True. -/
def type_validator_impl (t : PyType) (tyName : String) (v : PyVal) :
    Except PErr Bool :=
  if !(isinstance v t) then .error (.typeError tyName) else .ok true

/-- Embedding of proputils.ValidatedProperty.__set__ for a configured field:
call the validator (whose own exceptions, such as the TypeError from
type_validator, propagate), raise ValueError interpolating value, field name
and owner when the result is falsy, and otherwise delegate to the base
Property.__set__, which stores the value in the slot. An error leaves the
slot untouched because the base set is never reached. -/
def validatedSet (validator : PyVal → Except PErr Bool) (name cls : String)
    (v : PyVal) : Except PErr (Option PyVal) :=
  match validator v with
  | .error e => .error e
  | .ok b => if !b then .error (.valueError name cls v) else .ok (some v)

/-- Embedding of proputils.StrictProperty: a ValidatedProperty constructed
with type_validator of the given type. -/
def strictSet (t : PyType) (tyName name cls : String) (v : PyVal) :
    Except PErr (Option PyVal) :=
  validatedSet (type_validator_impl t tyName) name cls v

/-- A class attribute as HasProps.__config_props__ sees it: either a bindable
accessor (a value exposing a __config__ hook, identified here by a numeric
id) or a plain value, for which config_prop_name returns False. -/
inductive PAttr where
  | accessor (id : Nat)
  | plain
deriving DecidableEq, Repr

/-- Lookup in an association-list model of a Python dict. -/
def alget {β : Type} : List (String × β) → String → Option β
  | [], _ => none
  | (k0, v0) :: rest, k => if k0 = k then some v0 else alget rest k

/-- Assignment in an association-list model of a Python dict: an existing key
keeps its position and gets the new value, a new key is appended. -/
def alset {β : Type} : List (String × β) → String → β → List (String × β)
  | [], k, v => [(k, v)]
  | (k0, v0) :: rest, k, v =>
    if k0 = k then (k, v) :: rest else (k0, v0) :: alset rest k v

/-- Per-type property registry of HasProps: field name to accessor id. -/
abbrev Registry := List (String × Nat)

/-- Embedding of the loop in HasProps.__config_props__ after the inherited
dict has been copied: iterate the class dict and record, under its name,
every attribute that config_prop_name accepts (every accessor); plain values
are skipped. -/
def configPropsFold (inherited : Registry) (attrs : List (String × PAttr)) :
    Registry :=
  attrs.foldl
    (fun props nv =>
      match nv.2 with
      | .accessor i => alset props nv.1 i
      | .plain => props)
    inherited

/-- The world maps class names to their registries, so that the effect of
finalizing one type on the other types is observable. -/
abbrev World := List (String × Registry)

/-- Embedding of finalizing a HasProps subtype: HasProps.__config_props__
first binds cls.__props to a copy of the nearest ancestor dict, obtained here
from the world by the parent name (absence of any ancestor dict is the
AttributeError branch, which starts from an empty dict), and then overlays
the own declared accessors; the world gains or replaces only the entry of the
class being finalized. -/
def finalizeHasProps (w : World) (clsName parentName : String)
    (attrs : List (String × PAttr)) : World :=
  let inherited := (alget w parentName).getD []
  alset w clsName (configPropsFold inherited attrs)

/-- The accessor, if any, that a class dict declares under a name (unique
when the attribute names are distinct, which Python class dicts guarantee). -/
def declaredAccessor : List (String × PAttr) → String → Option Nat
  | [], _ => none
  | (k, a) :: rest, n =>
    if k = n then
      match a with
      | .accessor i => some i
      | .plain => none
    else declaredAccessor rest n

/-- The example predicate of the specification: value is at least zero
(meaningful on ints, falsy elsewhere). -/
def nonNegPred : PyVal → Bool
  | .vint n => decide (0 ≤ n)
  | _ => false

end Props

namespace Util

/-- One util.SourceOrdered instance: the subclass it was constructed as and
the stamp copied from the shared class-level counter at construction time.
Nothing in the source ever writes __source_order after __init__ (the
source_order property only reads it), so an instance value is immutable
here. -/
structure SOInst where
  cls : String
  source_order : Nat
deriving DecidableEq, Repr

/-- Embedding of SourceOrdered.__init__: copy the current value of the
counter stored on the SourceOrdered base class into the new instance, then
increment that single shared counter (the source increments
SourceOrdered.__next_source_order explicitly on the base class, so every
subclass shares it). -/
def soInit (cls : String) (counter : Nat) : SOInst × Nat :=
  (⟨cls, counter⟩, counter + 1)

/-- Construct a sequence of SourceOrdered instances of arbitrary subclasses,
in order, threading the one shared counter. -/
def soInitMany : List String → Nat → List SOInst × Nat
  | [], c => ([], c)
  | cls :: rest, c =>
    let p := soInit cls c
    let q := soInitMany rest p.2
    (p.1 :: q.1, q.2)

end Util

namespace Machine

/-- A machine.State instance. Python compares states by object identity in
dict lookups; per the SourceOrdered invariant no two live instances share a
source_order stamp, so the stamp doubles as identity here. -/
structure St where
  source_order : Nat
deriving DecidableEq, Repr

/-- Errors raised by the machine layer: a NameError on an identifier not
bound in machine.py, the AttributeError from reading __state_map when it was
never assigned, and the AssertionError of Transition.__init__ whose message
interpolates the offending state. -/
inductive MErr where
  | nameError (ident : String)
  | attributeError
  | assertionError (so : Nat)
deriving DecidableEq, Repr

/-- Lookup in the association-list model of a dict keyed by states. -/
def dget : List (St × St) → St → Option St
  | [], _ => none
  | (k0, v0) :: rest, k => if k0 = k then some v0 else dget rest k

/-- Assignment in the association-list model of a dict keyed by states: an
existing key keeps its position and gets the new value, a new key is
appended. -/
def dinsert : List (St × St) → St → St → List (St × St)
  | [], k, v => [(k, v)]
  | (k0, v0) :: rest, k, v =>
    if k0 = k then (k, v) :: rest else (k0, v0) :: dinsert rest k v

/-- A key of the state map passed to Transition: either a single State,
which Transition.__init__ wraps into a one-element list, or an iterable of
States. -/
inductive Froms where
  | single (s : St)
  | many (ss : List St)
deriving DecidableEq, Repr

/-- Normalization performed by the `isinstance(froms, State)` branch of
Transition.__init__. -/
def Froms.toList : Froms → List St
  | .single s => [s]
  | .many ss => ss

/-- Inner loop of Transition.__init__ over one froms iterable. The source
checks membership of next_from in seen_froms and would raise AssertionError,
but it never adds anything to seen_froms, so the set is passed through
unmodified here, exactly as in the code; a duplicate source state simply
overwrites the earlier entry of final_state_map. -/
def addFroms (seen : List St) (dst : St) :
    List St → List (St × St) → Except MErr (List (St × St))
  | [], m => .ok m
  | f :: fs, m =>
    if f ∈ seen then .error (.assertionError f.source_order)
    else addFroms seen dst fs (dinsert m f dst)

/-- A machine.Transition object. The private __state_map attribute is
assigned inside the loop body of __init__, so a transition built from an
empty state map never gets the attribute at all: state_map = none models
that. -/
structure Trans where
  state_map : Option (List (St × St))
deriving DecidableEq, Repr

/-- Outer loop of Transition.__init__ over the state map entries, threading
final_state_map; seen_froms stays empty throughout, as in the source. -/
def transitionInitLoop (seen : List St) :
    List (Froms × St) → List (St × St) → Except MErr (List (St × St))
  | [], m => .ok m
  | (froms, dst) :: rest, m =>
    match addFroms seen dst froms.toList m with
    | .error e => .error e
    | .ok m2 => transitionInitLoop seen rest m2

/-- Embedding of machine.Transition.__init__. -/
def transitionInit (entries : List (Froms × St)) : Except MErr Trans :=
  match transitionInitLoop [] entries [] with
  | .error e => .error e
  | .ok m => .ok ⟨if entries.isEmpty then none else some m⟩

/-- Embedding of Transition.get_next_state_from: reading __state_map raises
AttributeError when it was never assigned; otherwise it is a dict get with
default None. The machine state handed in may itself be None (a machine with
no states), which is not a key of the map. -/
def get_next_state_from (t : Trans) (s : Option St) : Except MErr (Option St) :=
  match t.state_map with
  | none => .error .attributeError
  | some m => .ok
      (match s with
       | none => none
       | some st => dget m st)

/-- A machine.Machine instance, reduced to the field the claims are about:
the current state set through set_state (None when no initial state
exists). -/
structure MachInst where
  state : Option St
deriving DecidableEq, Repr

/-- Embedding of Transitioner.__call__ together with Transitioner.next_state.
When next_state is None the source executes
raise IllegalTransitionError(message % (self.transition.name, current_state, ...)):
the identifier IllegalTransitionError is not defined anywhere in machine.py
(the exception class that is defined there is IllegalStateTransition), so the
raise statement itself fails with a NameError on that identifier before the
message tuple (which would fail too: current_state is an unbound local and
Transition has no name attribute) is evaluated, and the machine state is left
untouched. Otherwise the machine state is assigned the destination and the
destination is returned. -/
def transitionerCall (m : MachInst) (t : Trans) : Except MErr (St × MachInst) :=
  match get_next_state_from t m.state with
  | .error e => .error e
  | .ok none => .error (.nameError "IllegalTransitionError")
  | .ok (some ns) => .ok (ns, ⟨some ns⟩)

/-- A value in the class dict of a Machine-derived type, as the Machine
metaclass classifies it. -/
inductive MAttr where
  | state (s : St)
  | transition (t : Trans)
  | other
deriving DecidableEq, Repr

/-- The states the Machine metaclass collects from the class dict: values
that are States and whose attribute name is not INIT. -/
def statesOf (dct : List (String × MAttr)) : List St :=
  dct.filterMap fun nv =>
    match nv.2 with
    | .state s => if nv.1 = "INIT" then none else some s
    | _ => none

/-- The ordering key used by the metaclass: sorted(..., key state.source_order). -/
def soLe (a b : St) : Prop := a.source_order ≤ b.source_order

instance : DecidableRel soLe := fun a b => Nat.decLe a.source_order b.source_order

instance : IsTotal St soLe := ⟨fun a b => Nat.le_total a.source_order b.source_order⟩

instance : IsTrans St soLe := ⟨fun _ _ _ h1 h2 => Nat.le_trans h1 h2⟩

/-- The initial state the Machine metaclass stores in _Machine__INIT:
inherited models getattr(cls, _Machine__INIT, None). Only when the class dict
declares at least one state and nothing was inherited does the metaclass sort
the declared states by source_order and pick the first. -/
def machineClsINIT (dct : List (String × MAttr)) (inherited : Option St) :
    Option St :=
  if (statesOf dct).isEmpty then inherited
  else
    match inherited with
    | some s => some s
    | none => (List.insertionSort soLe (statesOf dct)).head?

/-- Embedding of the state setup in Machine.__init__: set_state(__INIT) when
the attribute exists, else set_state(None). -/
def machineNew (dct : List (String × MAttr)) (inherited : Option St) :
    MachInst :=
  ⟨machineClsINIT dct inherited⟩

end Machine

namespace Modl

/-- The four accumulator node classes of modl/check.py. -/
inductive Kind where
  | and
  | or
  | add
  | sub
deriving DecidableEq, Repr

/-- Check expression nodes over instance type A and value type B: the
untouched base Check (whose check method raises NotImplementedError), the
constant leaf K, a user-defined leaf whose check takes the one instance
argument, and a compound node carrying its class and ordered child list. -/
inductive Chk (A B : Type) where
  | base
  | K (v : B)
  | leaf (f : A → B)
  | node (k : Kind) (checks : List (Chk A B))

/-- The checks tuple of a compound node (empty for non-compound values; the
source only reads it on CompoundCheck instances). -/
def Chk.checksOf {A B : Type} : Chk A B → List (Chk A B)
  | .node _ cs => cs
  | _ => []

/-- The isinstance(value, cls) test FlattenableCompoundCheck.make performs,
with cls one of the concrete node classes. -/
def Chk.sameKind {A B : Type} (k : Kind) : Chk A B → Bool
  | .node k2 _ => k2 = k
  | _ => false

/-- Embedding of FlattenableCompoundCheck.make, invoked by the operator
methods of Check with cls being And, Or or Add: an operand that is already a
node of the same class contributes its children in place, any other operand
is kept as a single child. -/
def Chk.make {A B : Type} (k : Kind) (l r : Chk A B) : Chk A B :=
  .node k ((if l.sameKind k then l.checksOf else [l]) ++
           (if r.sameKind k then r.checksOf else [r]))

/-- Embedding of Check.__sub__ and Check.__rsub__: Sub(lval, rval) is built
directly from the two operands, with no flattening step. -/
def Chk.subMk {A B : Type} (l r : Chk A B) : Chk A B :=
  .node .sub [l, r]

/-- An association tree recording how a chain of operands was combined two
at a time with one fixed operator (left-nested, right-nested or mixed). -/
inductive OpTree (A B : Type) where
  | leaf (c : Chk A B)
  | branch (l r : OpTree A B)

/-- The operands of the chain, in source order. -/
def OpTree.leaves {A B : Type} : OpTree A B → List (Chk A B)
  | .leaf c => [c]
  | .branch l r => l.leaves ++ r.leaves

/-- Build the chained expression: every internal combination goes through
make with the same class, exactly as chaining the corresponding binary
operator does. -/
def OpTree.build {A B : Type} (k : Kind) : OpTree A B → Chk A B
  | .leaf c => c
  | .branch l r => Chk.make k (l.build k) (r.build k)

/-- Interpretation of the binary reducers operator.and_, operator.or_,
operator.add and operator.sub: in Python these dispatch dynamically to the
operand values, so the value algebra is a parameter of the embedding. -/
structure Ops (B : Type) where
  opAnd : B → B → B
  opOr : B → B → B
  opAdd : B → B → B
  opSub : B → B → B

/-- Select the reducer stored in the _OP attribute of a node class. -/
def Ops.apply {B : Type} (o : Ops B) : Kind → B → B → B
  | .and => o.opAnd
  | .or => o.opOr
  | .add => o.opAdd
  | .sub => o.opSub

/-- Errors raised while evaluating a check: Check.check raises
NotImplementedError; the TypeError is the arity failure of a one-argument
call to a method declared with more required parameters; the IndexError is
checks[0] on an empty tuple. -/
inductive CErr where
  | notImplementedError
  | typeError (msg : String)
  | indexError
deriving DecidableEq, Repr

mutual

/-- Embedding of the one-argument call c.check(instance), which is how
AccumulatorCheck.check invokes every child. Check.check raises
NotImplementedError. K.check is declared as def check(self, cls, instance),
so a one-argument invocation fails with a TypeError (missing positional
argument) before the constant is returned. A user leaf returns its function
applied to the instance. AccumulatorCheck.check reads checks[0] (IndexError
on an empty tuple), evaluates it, and folds the remaining children through
the _OP reducer of the class. -/
def chkCall {A B : Type} (o : Ops B) : Chk A B → A → Except CErr B
  | .base, _ => .error .notImplementedError
  | .K _, _ =>
    .error (.typeError "check missing 1 required positional argument: instance")
  | .leaf f, x => .ok (f x)
  | .node _ [], _ => .error .indexError
  | .node k (c :: rest), x =>
    match chkCall o c x with
    | .error e => .error e
    | .ok v => chkFold o k rest x v

/-- The loop for next in checks[1:] of AccumulatorCheck.check, threading the
running result through the reducer. -/
def chkFold {A B : Type} (o : Ops B) (k : Kind) :
    List (Chk A B) → A → B → Except CErr B
  | [], _, acc => .ok acc
  | c :: rest, x, acc =>
    match chkCall o c x with
    | .error e => .error e
    | .ok v => chkFold o k rest x (o.apply k acc v)

end

/-- The integer value algebra: Python ints reduce with bitwise and, bitwise
or, addition and subtraction under these operators. -/
def intOps : Ops Int :=
  ⟨Int.land, Int.lor, fun a b => a + b, fun a b => a - b⟩

/-- A left-nested chain of three constant operands combined with the And
operator, used to exercise the flattening theorem on a concrete input. -/
def andChainTree : OpTree Unit Int :=
  .branch (.branch (.leaf (.K 1)) (.leaf (.K 2))) (.leaf (.K 3))

end Modl

end Sordid

open Sordid

/-- C1: the success path of the auto-constructed Transitioner assigns the
mapped destination state and returns it, but the failure path does not raise
the claimed illegal-transition error. With the transition mapping state 0 to
state 1 and the machine currently in state 1 (which has no mapped
destination), the invocation fails with a NameError on the undefined
identifier IllegalTransitionError, identifying neither the transition name
nor the current state; the machine state is left unchanged because the error
escapes before set_state runs. -/
theorem C1_transitioner_error_path :
    Machine.transitionInit [(.single ⟨0⟩, ⟨1⟩)] = .ok ⟨some [(⟨0⟩, ⟨1⟩)]⟩ ∧
    Machine.transitionerCall ⟨some ⟨1⟩⟩ ⟨some [(⟨0⟩, ⟨1⟩)]⟩
      = .error (.nameError "IllegalTransitionError") ∧
    Machine.transitionerCall ⟨some ⟨0⟩⟩ ⟨some [(⟨0⟩, ⟨1⟩)]⟩
      = .ok (⟨1⟩, ⟨some ⟨1⟩⟩) :=
  ⟨rfl, rfl, rfl⟩

/-- C2: constructing a Transition whose state map mentions the same source
state twice, either twice within one iterable key or across two entries,
does NOT fail at construction: Transition.__init__ creates seen_froms but
never adds anything to it, so its AssertionError can never fire and the
duplicate source silently overwrites the earlier mapping. -/
theorem C2_duplicate_source_accepted :
    Machine.transitionInit [(.many [⟨0⟩, ⟨0⟩], ⟨1⟩)] = .ok ⟨some [(⟨0⟩, ⟨1⟩)]⟩ ∧
    Machine.transitionInit [(.many [⟨0⟩], ⟨1⟩), (.many [⟨0⟩, ⟨2⟩], ⟨2⟩)]
      = .ok ⟨some [(⟨0⟩, ⟨2⟩), (⟨2⟩, ⟨2⟩)]⟩ :=
  ⟨rfl, rfl⟩

/-- C5: binding an already bound accessor is refused and the original
binding is untouched, but not with the claimed configuration error
identifying the existing binding: Property.__config__ raises
IllegalStateError, an identifier that proputils.py neither defines nor
imports, so the second bind attempt of this concrete accessor (bound to
class A under name x, then offered class B and name y) fails with a NameError
on IllegalStateError, which identifies nothing. -/
theorem C5_rebind_fails_with_nameerror :
    Props.propertyConfig ⟨none, none, none⟩ "A" "x"
      = .ok ⟨some "x", some "_A__x", some "A"⟩ ∧
    Props.propertyConfig ⟨some "x", some "_A__x", some "A"⟩ "B" "y"
      = .error (.nameError "IllegalStateError") :=
  ⟨rfl, rfl⟩

/-- C6: for every bound ReadOnlyProperty field, with arbitrary field name
and owner, and every instance: the first set on an instance with an empty
slot succeeds and stores the value; a set on an instance that already stores
any value fails, whatever the new value is, with the AttributeError that
interpolates the field name and the owner, leaving the slot untouched (the
error is raised instead of reaching the storing base set); delete always
fails with that AttributeError. -/
theorem C6_readonly_single_set :
    ∀ (name cls : String) (v w v2 : Props.PyVal),
      Props.readOnlySet name cls none v = .ok (some v) ∧
      Props.readOnlySet name cls (some w) v2 = .error (.readOnly name cls) ∧
      Props.readOnlyDelete name cls = .error (.readOnly name cls) :=
  fun _ _ _ _ _ => ⟨rfl, rfl, rfl⟩

/-- C7: setting a StrictProperty of type t to a value that is not an
instance of t fails with the TypeError raised inside type_validator, not
with a ValueError, while setting a ValidatedProperty whose predicate is
falsy on the value fails with the ValueError interpolating field name, owner
and the offending value; a truthy predicate stores the value. A rejected set
stores nothing: both errors are raised before the storing base set. -/
theorem C7_strict_type_error_validated_value_error :
    ∀ (t : Props.PyType) (tyName name cls : String) (v : Props.PyVal)
      (pred : Props.PyVal → Bool),
      (Props.isinstance v t = false →
        Props.strictSet t tyName name cls v = .error (.typeError tyName)) ∧
      (pred v = false →
        Props.validatedSet (fun x => .ok (pred x)) name cls v
          = .error (.valueError name cls v)) ∧
      (pred v = true →
        Props.validatedSet (fun x => .ok (pred x)) name cls v = .ok (some v)) := by
  intro t tyName name cls v pred
  refine ⟨fun h => ?_, fun h => ?_, fun h => ?_⟩ <;>
    simp [Props.strictSet, Props.validatedSet, Props.type_validator_impl, h]

/-- C7 witness: StrictProperty int rejects a float value with the TypeError;
a ValidatedProperty with the non-negativity predicate rejects the int -1
with the ValueError carrying field, owner and value, and accepts 0, storing
it. -/
theorem C7_witness :
    Props.strictSet .int "int" "age" "Person" (.vfloat 0)
        = .error (.typeError "int") ∧
    Props.validatedSet (fun x => .ok (Props.nonNegPred x)) "value" "UnsignedInt"
        (.vint (-1)) = .error (.valueError "value" "UnsignedInt" (.vint (-1))) ∧
    Props.validatedSet (fun x => .ok (Props.nonNegPred x)) "value" "UnsignedInt"
        (.vint 0) = .ok (some (.vint 0)) := by
  refine ⟨?_, ?_, ?_⟩
  · exact (C7_strict_type_error_validated_value_error .int "int" "age" "Person"
      (.vfloat 0) Props.nonNegPred).1 (by decide)
  · exact (C7_strict_type_error_validated_value_error .int "int" "value" "UnsignedInt"
      (.vint (-1)) Props.nonNegPred).2.1 (by decide)
  · exact (C7_strict_type_error_validated_value_error .int "int" "value" "UnsignedInt"
      (.vint 0) Props.nonNegPred).2.2 (by decide)

/-- Helper: the stamps handed out by a run of SourceOrdered constructions are
the consecutive naturals starting at the initial counter, and the counter
advances by the number of instances. -/
theorem soInitMany_spec :
    ∀ (classes : List String) (c : Nat),
      (Util.soInitMany classes c).1.map Util.SOInst.source_order
          = List.range' c classes.length ∧
      (Util.soInitMany classes c).2 = c + classes.length := by
  intro classes
  induction classes with
  | nil => intro c; simp [Util.soInitMany]
  | cons a l ih =>
    intro c
    have h := ih (c + 1)
    refine ⟨?_, ?_⟩
    · simp [Util.soInitMany, Util.soInit, h.1, List.range'_succ]
    · simp [Util.soInitMany, Util.soInit, h.2]
      omega

/-- C10: constructing any sequence of SourceOrdered instances, of arbitrary
subclasses and starting from any counter value, stamps them with consecutive
values of the single shared class-level counter: the stamps are strictly
increasing in construction order, pairwise distinct across all the instances
regardless of their subclasses, and the counter advances once per instance.
A stamp never changes after construction: nothing in the source writes
__source_order outside __init__. -/
theorem C10_source_order_distinct_increasing :
    ∀ (classes : List String) (c : Nat),
      (Util.soInitMany classes c).1.map Util.SOInst.source_order
          = List.range' c classes.length ∧
      ((Util.soInitMany classes c).1.map Util.SOInst.source_order).Pairwise (· < ·) ∧
      ((Util.soInitMany classes c).1.map Util.SOInst.source_order).Nodup ∧
      (Util.soInitMany classes c).2 = c + classes.length := by
  intro classes c
  have h := soInitMany_spec classes c
  refine ⟨h.1, ?_, ?_, h.2⟩
  · rw [h.1]; exact List.pairwise_lt_range' c classes.length
  · rw [h.1]; exact List.nodup_range' c classes.length

/-- Helper: in a list of states with pairwise distinct source_order stamps,
two members with the same stamp are the same state. -/
theorem st_pairwise_ne_inj :
    ∀ (l : List Machine.St),
      l.Pairwise (fun a b => a.source_order ≠ b.source_order) →
      ∀ (a b : Machine.St), a ∈ l → b ∈ l →
        a.source_order = b.source_order → a = b := by
  intro l
  induction l with
  | nil => intro _ a b ha _ _; exact absurd ha (List.not_mem_nil a)
  | cons x xs ih =>
    intro hp a b ha hb hab
    rcases List.pairwise_cons.mp hp with ⟨hx, hxs⟩
    rcases List.mem_cons.mp ha with rfl | ha2
    · rcases List.mem_cons.mp hb with rfl | hb2
      · rfl
      · exact absurd hab (hx b hb2)
    · rcases List.mem_cons.mp hb with rfl | hb2
      · exact absurd hab.symm (hx a ha2)
      · exact ih hxs a b ha2 hb2 hab

/-- Helper: the head of the insertion sort by source_order is a member of
the input carrying a least stamp. -/
theorem insertionSort_head_min :
    ∀ (l : List Machine.St) (h : Machine.St) (t : List Machine.St),
      List.insertionSort Machine.soLe l = h :: t →
      h ∈ l ∧ ∀ x ∈ l, Machine.soLe h x := by
  intro l h t heq
  have hperm := List.perm_insertionSort Machine.soLe l
  have hsorted := List.sorted_insertionSort Machine.soLe l
  rw [heq] at hperm hsorted
  refine ⟨hperm.mem_iff.mp (List.mem_cons_self h t), ?_⟩
  intro x hx
  rcases List.mem_cons.mp (hperm.mem_iff.mpr hx) with rfl | hx2
  · exact Nat.le_refl x.source_order
  · exact (List.sorted_cons.mp hsorted).1 x hx2

/-- C3: for every Machine-derived class dict with no inherited
_Machine__INIT: if at least one State is declared (under a name other than
INIT) and the declared states carry pairwise distinct source_order stamps
(which the shared SourceOrdered counter guarantees), then the declared state
with the least stamp becomes the default initial state and a freshly
constructed instance starts in it; if no State is declared, a fresh instance
has state None. -/
theorem C3_default_initial_state :
    ∀ (dct : List (String × Machine.MAttr)),
      ((Machine.statesOf dct).Pairwise (fun a b => a.source_order ≠ b.source_order) →
        ∀ s ∈ Machine.statesOf dct,
          (∀ s2 ∈ Machine.statesOf dct, s.source_order ≤ s2.source_order) →
          (Machine.machineNew dct none).state = some s) ∧
      (Machine.statesOf dct = [] → (Machine.machineNew dct none).state = none) := by
  intro dct
  constructor
  · intro hp s hs hmin
    cases heq : List.insertionSort Machine.soLe (Machine.statesOf dct) with
    | nil =>
      have h2 := List.perm_insertionSort Machine.soLe (Machine.statesOf dct)
      rw [heq] at h2
      rw [h2.symm.eq_nil] at hs
      exact absurd hs (List.not_mem_nil s)
    | cons h t =>
      obtain ⟨hmem, hle⟩ := insertionSort_head_min _ h t heq
      have hEq : h = s := st_pairwise_ne_inj _ hp h s hmem hs
        (Nat.le_antisymm (hle s hs) (hmin h hmem))
      have hne : (Machine.statesOf dct).isEmpty = false := by
        cases h3 : Machine.statesOf dct with
        | nil => rw [h3] at hs; exact absurd hs (List.not_mem_nil s)
        | cons a l => rfl
      simp [Machine.machineNew, Machine.machineClsINIT, hne, heq, hEq]
  · intro h0
    simp [Machine.machineNew, Machine.machineClsINIT, h0]

/-- C3 witness: a class dict declaring states with stamps 5 and 7 under
names a and b yields the stamp-5 state as a fresh instance state, and a
class dict with no State yields None. -/
theorem C3_witness :
    (Machine.machineNew [("a", .state ⟨5⟩), ("b", .state ⟨7⟩)] none).state
        = some ⟨5⟩ ∧
    (Machine.machineNew [("x", .other)] none).state = none := by
  constructor
  · exact (C3_default_initial_state [("a", .state ⟨5⟩), ("b", .state ⟨7⟩)]).1
      (by decide) ⟨5⟩ (by decide) (by decide)
  · exact (C3_default_initial_state [("x", .other)]).2 (by decide)

/-- Helper: looking up the key just assigned yields the new value. -/
theorem alget_alset_self {β : Type} :
    ∀ (d : List (String × β)) (k : String) (v : β),
      Props.alget (Props.alset d k v) k = some v := by
  intro d k v
  induction d with
  | nil => simp [Props.alset, Props.alget]
  | cons p rest ih =>
    obtain ⟨k0, v0⟩ := p
    by_cases h : k0 = k
    · simp [Props.alset, Props.alget, h]
    · simp [Props.alset, Props.alget, h, ih]

/-- Helper: assignment leaves the other keys unchanged. -/
theorem alget_alset_ne {β : Type} :
    ∀ (d : List (String × β)) (k k2 : String) (v : β), k ≠ k2 →
      Props.alget (Props.alset d k v) k2 = Props.alget d k2 := by
  intro d k k2 v hne
  induction d with
  | nil => simp [Props.alset, Props.alget, hne]
  | cons p rest ih =>
    obtain ⟨k0, v0⟩ := p
    by_cases h : k0 = k
    · subst h
      simp [Props.alset, Props.alget, hne]
    · simp [Props.alset, Props.alget, h, ih]

/-- Helper: the keys after an assignment are the old keys plus the assigned
key. -/
theorem mem_keys_alset {β : Type} :
    ∀ (d : List (String × β)) (k : String) (v : β) (n : String),
      (n ∈ (Props.alset d k v).map Prod.fst ↔ n = k ∨ n ∈ d.map Prod.fst) := by
  intro d k v n
  induction d with
  | nil => simp [Props.alset]
  | cons p rest ih =>
    obtain ⟨k0, v0⟩ := p
    by_cases h : k0 = k
    · subst h
      simp [Props.alset]
    · simp [Props.alset, h, ih]
      tauto

/-- Helper: assignment preserves distinctness of the keys. -/
theorem alset_keys_nodup {β : Type} :
    ∀ (d : List (String × β)) (k : String) (v : β),
      (d.map Prod.fst).Nodup → ((Props.alset d k v).map Prod.fst).Nodup := by
  intro d k v
  induction d with
  | nil => intro _; simp [Props.alset]
  | cons p rest ih =>
    obtain ⟨k0, v0⟩ := p
    intro hnd
    rcases List.nodup_cons.mp hnd with ⟨hk0, hrest⟩
    by_cases h : k0 = k
    · subst h
      simpa [Props.alset] using hnd
    · have hstep : Props.alset ((k0, v0) :: rest) k v = (k0, v0) :: Props.alset rest k v := by
        simp [Props.alset, h]
      rw [hstep, List.map_cons]
      refine List.nodup_cons.mpr ⟨?_, ih hrest⟩
      intro hmem
      rcases (mem_keys_alset rest k v k0).mp hmem with h2 | h2
      · exact h h2
      · exact hk0 h2

/-- Helper: a name that is not among the attribute names declares no
accessor. -/
theorem declaredAccessor_eq_none :
    ∀ (attrs : List (String × Props.PAttr)) (n : String),
      n ∉ attrs.map Prod.fst → Props.declaredAccessor attrs n = none := by
  intro attrs n
  induction attrs with
  | nil => intro _; rfl
  | cons p rest ih =>
    obtain ⟨k, a⟩ := p
    intro hmem
    have hne : k ≠ n := fun h => hmem (by simp [h])
    have hrest : n ∉ rest.map Prod.fst := fun h => hmem (by simp [h])
    simp [Props.declaredAccessor, hne, ih hrest]

/-- Helper: with distinct attribute names, a name resolves in the overlaid
registry to the locally declared accessor when there is one and to the
inherited entry otherwise. -/
theorem configPropsFold_alget :
    ∀ (attrs : List (String × Props.PAttr)) (R : Props.Registry) (n : String),
      (attrs.map Prod.fst).Nodup →
      Props.alget (Props.configPropsFold R attrs) n
        = (Props.declaredAccessor attrs n).or (Props.alget R n) := by
  intro attrs
  induction attrs with
  | nil => intro R n _; simp [Props.configPropsFold, Props.declaredAccessor, Option.or]
  | cons p rest ih =>
    obtain ⟨k, a⟩ := p
    intro R n hnd
    rcases List.nodup_cons.mp hnd with ⟨hk, hrest⟩
    have hstep : Props.configPropsFold R ((k, a) :: rest)
        = Props.configPropsFold
            (match a with
             | .accessor i => Props.alset R k i
             | .plain => R) rest := by
      cases a <;> rfl
    rw [hstep, ih _ n hrest]
    by_cases hkn : k = n
    · subst hkn
      have hnone : Props.declaredAccessor rest k = none :=
        declaredAccessor_eq_none rest k hk
      cases a with
      | accessor i =>
        simp [Props.declaredAccessor, hnone, alget_alset_self, Option.or]
      | plain =>
        simp [Props.declaredAccessor, hnone, Option.or]
    · cases a with
      | accessor i =>
        simp [Props.declaredAccessor, Ne.symm hkn, hkn,
          alget_alset_ne R k n i (by exact hkn)]
      | plain =>
        simp [Props.declaredAccessor, hkn]

/-- Helper: the overlay preserves distinctness of registry keys. -/
theorem configPropsFold_keys_nodup :
    ∀ (attrs : List (String × Props.PAttr)) (R : Props.Registry),
      (R.map Prod.fst).Nodup →
      ((Props.configPropsFold R attrs).map Prod.fst).Nodup := by
  intro attrs
  induction attrs with
  | nil => intro R h; simpa [Props.configPropsFold] using h
  | cons p rest ih =>
    obtain ⟨k, a⟩ := p
    intro R h
    have hstep : Props.configPropsFold R ((k, a) :: rest)
        = Props.configPropsFold
            (match a with
             | .accessor i => Props.alset R k i
             | .plain => R) rest := by
      cases a <;> rfl
    rw [hstep]
    cases a with
    | accessor i => exact ih _ (alset_keys_nodup R k i h)
    | plain => exact ih _ h

/-- C4: finalizing a HasProps subtype with declared attribute fields leaves
the parent registry untouched in the world, binds the subtype to the overlay
of (a copy of) the inherited registry with the locally declared accessor
fields, and in that overlay every name resolves to the locally declared
accessor when one exists (a redeclared name thus replaces the inherited
entry) and to the inherited accessor otherwise; the registry keys stay
pairwise distinct, so a redeclaration never duplicates an entry. -/
theorem C4_hasprops_registry :
    ∀ (w : Props.World) (clsName parentName : String)
      (attrs : List (String × Props.PAttr)) (n : String),
      clsName ≠ parentName →
      (attrs.map Prod.fst).Nodup →
      Props.alget (Props.finalizeHasProps w clsName parentName attrs) parentName
          = Props.alget w parentName ∧
      Props.alget (Props.finalizeHasProps w clsName parentName attrs) clsName
          = some (Props.configPropsFold ((Props.alget w parentName).getD []) attrs) ∧
      Props.alget (Props.configPropsFold ((Props.alget w parentName).getD []) attrs) n
          = (Props.declaredAccessor attrs n).or
              (Props.alget ((Props.alget w parentName).getD []) n) ∧
      ((((Props.alget w parentName).getD []).map Prod.fst).Nodup →
        ((Props.configPropsFold ((Props.alget w parentName).getD []) attrs).map
            Prod.fst).Nodup) := by
  intro w clsName parentName attrs n hne hnd
  refine ⟨?_, ?_, ?_, ?_⟩
  · exact alget_alset_ne w clsName parentName _ hne
  · exact alget_alset_self w clsName _
  · exact configPropsFold_alget attrs _ n hnd
  · exact fun h => configPropsFold_keys_nodup attrs _ h

/-- C4 witness: a base class with fields x and y; a subtype redeclaring y and
adding z plus a plain non-property attribute m. After finalization the
subtype registry is exactly x (inherited), y (replaced by the local
accessor) and z (local), the parent registry is unchanged, and lookups
resolve as the claim states. -/
theorem C4_witness :
    Props.alget (Props.finalizeHasProps [("Base", [("x", 0), ("y", 1)])]
        "Sub" "Base" [("y", .accessor 2), ("z", .accessor 3), ("m", .plain)])
        "Base" = some [("x", 0), ("y", 1)] ∧
    Props.alget (Props.finalizeHasProps [("Base", [("x", 0), ("y", 1)])]
        "Sub" "Base" [("y", .accessor 2), ("z", .accessor 3), ("m", .plain)])
        "Sub" = some [("x", 0), ("y", 2), ("z", 3)] := by
  have h := C4_hasprops_registry [("Base", [("x", 0), ("y", 1)])] "Sub" "Base"
    [("y", .accessor 2), ("z", .accessor 3), ("m", .plain)] "y"
    (by decide) (by decide)
  exact ⟨h.1.trans (by rfl), h.2.1.trans (by rfl)⟩

/-- Helper: building a chain over operands that are not nodes of the chain
kind produces, when spliced as an operand of make, exactly the operand
list. -/
theorem build_splice {A B : Type} (k : Modl.Kind) :
    ∀ t : Modl.OpTree A B,
      (∀ c ∈ t.leaves, c.sameKind k = false) →
      (if (t.build k).sameKind k then (t.build k).checksOf else [t.build k])
        = t.leaves := by
  intro t
  induction t with
  | leaf c =>
    intro h
    have hc : c.sameKind k = false := h c (by simp [Modl.OpTree.leaves])
    simp [Modl.OpTree.build, Modl.OpTree.leaves, hc]
  | branch l r ihl ihr =>
    intro h
    have hl := ihl fun c hc => h c (by simp [Modl.OpTree.leaves, hc])
    have hr := ihr fun c hc => h c (by simp [Modl.OpTree.leaves, hc])
    show (if (Modl.Chk.make k (l.build k) (r.build k)).sameKind k = true
          then (Modl.Chk.make k (l.build k) (r.build k)).checksOf
          else [Modl.Chk.make k (l.build k) (r.build k)])
        = l.leaves ++ r.leaves
    rw [if_pos (by simp [Modl.Chk.make, Modl.Chk.sameKind])]
    show (if (l.build k).sameKind k = true then (l.build k).checksOf else [l.build k])
        ++ (if (r.build k).sameKind k = true then (r.build k).checksOf else [r.build k])
      = l.leaves ++ r.leaves
    rw [hl, hr]

/-- C8: any chain of three or more operands, none of which is itself a node
of the chain kind, combined in any association with the same flattenable
operator And, Or or Add, builds one flat node whose checks tuple is exactly
the operand list: its length is the operand count and no direct child is a
node of the same kind. Sub, by contrast, always keeps exactly its two
operands as children, with no flattening, even when an operand is itself a
Sub node. -/
theorem C8_flatten_associative :
    ∀ (A B : Type) (k : Modl.Kind) (t : Modl.OpTree A B),
      k ≠ .sub →
      (∀ c ∈ t.leaves, c.sameKind k = false) →
      3 ≤ t.leaves.length →
      (t.build k = .node k t.leaves ∧
       (t.build k).checksOf = t.leaves ∧
       (t.build k).checksOf.length = t.leaves.length ∧
       ∀ c ∈ (t.build k).checksOf, c.sameKind k = false) ∧
      (∀ l r : Modl.Chk A B, (Modl.Chk.subMk l r).checksOf = [l, r]) := by
  intro A B k t _ hleaves hlen
  have hmain : t.build k = .node k t.leaves := by
    cases t with
    | leaf c => simp [Modl.OpTree.leaves] at hlen
    | branch l r =>
      have hl := build_splice k l fun c hc => hleaves c (by simp [Modl.OpTree.leaves, hc])
      have hr := build_splice k r fun c hc => hleaves c (by simp [Modl.OpTree.leaves, hc])
      show Modl.Chk.make k (l.build k) (r.build k) = .node k (l.leaves ++ r.leaves)
      rw [Modl.Chk.make, hl, hr]
  have hchecks : (t.build k).checksOf = t.leaves := by
    rw [hmain]; rfl
  refine ⟨⟨hmain, hchecks, by rw [hchecks], ?_⟩, fun l r => rfl⟩
  intro c hc
  rw [hchecks] at hc
  exact hleaves c hc

/-- C8 witness: chaining the three constants K 1, K 2, K 3 with the And
operator (left-nested) yields the single flat node with all three as direct
children, and Sub keeps a Sub operand nested instead of splicing it. -/
theorem C8_witness :
    Sordid.Modl.andChainTree.build .and
        = .node .and [.K 1, .K 2, .K 3] ∧
    (Modl.Chk.subMk (Modl.Chk.subMk (Modl.Chk.K (1 : Int) : Modl.Chk Unit Int)
        (Modl.Chk.K 2)) (Modl.Chk.K 3)).checksOf
      = [Modl.Chk.subMk (Modl.Chk.K 1) (Modl.Chk.K 2), Modl.Chk.K 3] := by
  have h := C8_flatten_associative Unit Int .and Sordid.Modl.andChainTree
    (by decide) (by decide) (by decide)
  exact ⟨h.1.1.trans rfl, h.2 _ _⟩

/-- Helper: when every remaining child evaluates successfully, the loop of
AccumulatorCheck.check computes the left fold of the results through the
class reducer. -/
theorem chkFold_forall2 :
    ∀ {A B : Type} (o : Modl.Ops B) (k : Modl.Kind) (x : A)
      (rest : List (Modl.Chk A B)) (vs : List B),
      List.Forall₂ (fun ci vi => Modl.chkCall o ci x = .ok vi) rest vs →
      ∀ (acc : B), Modl.chkFold o k rest x acc = .ok (vs.foldl (o.apply k) acc) := by
  intro A B o k x rest vs h
  induction h with
  | nil => intro acc; simp [Modl.chkFold]
  | cons hc htail ih =>
    intro acc
    simp only [Modl.chkFold, hc, List.foldl]
    exact ih _

/-- C9 amended: for every accumulator node with children c1..cn (n at least
1, so in particular the constructible n at least 2) and every input x on
which every child one-argument check call succeeds, the node evaluates to
the left-to-right fold of the child results through the node reducer
starting from the first result, with no identity element. A K child,
however, does not contribute its constant: its check method takes an extra
class argument, so the one-argument call the accumulator makes on it fails
with a TypeError (see the counterexample theorem). -/
theorem C9_accumulator_fold :
    ∀ (A B : Type) (o : Modl.Ops B) (k : Modl.Kind) (c : Modl.Chk A B)
      (rest : List (Modl.Chk A B)) (x : A) (v : B) (vs : List B),
      Modl.chkCall o c x = .ok v →
      List.Forall₂ (fun ci vi => Modl.chkCall o ci x = .ok vi) rest vs →
      Modl.chkCall o (.node k (c :: rest)) x = .ok (vs.foldl (o.apply k) v) := by
  intro A B o k c rest x v vs hc hrest
  simp only [Modl.chkCall, hc]
  exact chkFold_forall2 o k x rest vs hrest v

/-- C9 witness for the amended fold: an Add node over two user leaves
(identity and doubling) evaluated at 3 yields 3 + 6 = 9, the left fold of
the child results starting from the first. -/
theorem C9_fold_witness :
    Modl.chkCall Modl.intOps
        (.node .add [.leaf (fun x : Int => x), .leaf (fun x => x * 2)]) 3
      = .ok 9 := by
  have h := C9_accumulator_fold Int Int Modl.intOps .add
    (.leaf (fun x : Int => x)) [.leaf (fun x : Int => x * 2)] 3 3 [6]
    (by simp [Modl.chkCall])
    (List.Forall₂.cons (by simp [Modl.chkCall]) List.Forall₂.nil)
  simpa [Modl.Ops.apply, Modl.intOps] using h

/-- C9 counterexample: the Add node with the two constant children K 1 and
K 2, exactly what auto-wrapping the raw operands 1 and 2 produces, does not
evaluate to 1 + 2 on input 0: the one-argument call the accumulator makes on
the first K child fails with the TypeError arity error, because K.check is
declared as check(self, cls, instance). -/
theorem C9_counterexample_K_child :
    Modl.chkCall Modl.intOps (.node .add [.K 1, .K 2]) (0 : Int)
        = .error (.typeError "check missing 1 required positional argument: instance") ∧
    Modl.chkCall Modl.intOps (.node .add [.K 1, .K 2]) (0 : Int) ≠ .ok 3 := by
  constructor
  · simp [Modl.chkCall]
  · simp [Modl.chkCall]
